import Mathlib

/-!
Verification of the UDP transport layer of the DNS-CPP resolver
(src/src/udp.cpp, class DNS::Udp).

Shallow embedding.  The member state of a `Udp` object is modelled by the
structure `Udp` below; every interaction with the outside world (the event
loop, the kernel, the user-space handler) is modelled either as an input
oracle passed to the operation (results of socket, recvfrom, poll, sendto,
and tokens returned by the loop) or as an `Event` appended to an output
trace (calls the object makes: loop registration and cancellation, the
handler callback, socket system calls).

The `_responses` queue element type holds what `emplace_back(now, addr,
buffer, bytes)` stores: the capture time, the raw source-address bytes and
the payload bytes.  Reconstruction of an `Ip` from the raw bytes (the
`front.ip()` call in `Udp::idle`, implemented outside this file s source)
is kept abstract as a function `ipOf : List Nat → Option Ip`; `none`
models the std runtime error that the catch block in `Udp::idle`
swallows.
-/

/-- Raw inbound packet as it sits in the kernel receive queue: the source
address bytes that recvfrom writes into `from`, and the payload.  A packet
with an empty payload models a zero-length datagram (recvfrom returns 0,
which `Udp::notify` treats as end of batch). -/
structure Packet where
  addr    : List Nat
  payload : List Nat
deriving Repr, DecidableEq

/-- Element of the `_responses` queue: what `_responses.emplace_back(now,
(struct sockaddr *)&from, buffer, bytes)` stores in `Udp::notify`. -/
structure Datagram where
  time    : Nat
  addr    : List Nat
  payload : List Nat
deriving Repr, DecidableEq

/-- An IP address as exposed by the `Ip` class of the library: an address
family version (4 or 6) and the raw address bytes. -/
structure Ip where
  version : Nat
  bytes   : List Nat
deriving Repr, DecidableEq

/-- Destination address structure built by `Udp::send(const Ip &, const
Query &)`: a `sockaddr_in` (family AF_INET, port, 4 address bytes) or a
`sockaddr_in6` (family AF_INET6, port, flowinfo, scope id, 16 address
bytes). -/
inductive SockAddr where
  | v4 (port : Nat) (addr : List Nat)
  | v6 (port : Nat) (flowinfo : Nat) (scopeId : Nat) (addr : List Nat)
deriving Repr, DecidableEq

/-- Observable external calls made by the `Udp` methods.  `logError` is
the error report that the catch block in `Udp::idle` marks as a todo; no
code path emits it. -/
inductive Event where
  | socketCall (ipv6 : Bool)
  | setintopt  (sndbuf : Bool) (optval : Int)
  | add        (fd : Int)
  | remove     (fd : Int)
  | closeFd    (fd : Int)
  | armIdle
  | cancelIdle
  | pollCall
  | onReceived (ip : Ip) (payload : List Nat)
  | sendtoCall (address : SockAddr) (payload : List Nat)
  | logError
deriving Repr, DecidableEq

/-- Member state of a `DNS::Udp` object: the socket descriptor `_fd` (-1
when closed), the event-loop registration token `_identifier` (`none` for
nullptr), the idle-watcher token `_idle` (`none` for nullptr) and the
pending-response queue `_responses`. -/
structure Udp where
  _fd         : Int
  _identifier : Option Nat
  _idle       : Option Nat
  _responses  : List Datagram
deriving Repr, DecidableEq

/-- Result of `Udp::open`: the new member state, the returned bool, and
the trace of external calls. -/
structure OpenResult where
  state  : Udp
  ok     : Bool
  events : List Event
deriving Repr, DecidableEq

/-- Result of `Udp::close`. -/
structure CloseResult where
  state  : Udp
  ok     : Bool
  events : List Event
deriving Repr, DecidableEq

/-- Result of `Udp::readable`. -/
structure ReadableResult where
  ok     : Bool
  events : List Event
deriving Repr, DecidableEq

/-- Result of `Udp::notify`: the new member state, the kernel receive
queue that is left over, and the trace. -/
structure NotifyResult where
  state   : Udp
  pending : List Packet
  events  : List Event
deriving Repr, DecidableEq

/-- Result of `Udp::idle` and `Udp::stop`. -/
structure IdleResult where
  state  : Udp
  events : List Event
deriving Repr, DecidableEq

/-- Result of `Udp::send`: the new member state, the leftover kernel
receive queue, the returned bool, and the trace. -/
structure SendResult where
  state   : Udp
  pending : List Packet
  ok      : Bool
  events  : List Event
deriving Repr, DecidableEq

/-- Udp::open (udp.cpp lines 71-96).  `open` is a Lean keyword, hence the
name `openSocket`.  The result of the socket() system call is the oracle
`sockResult` (-1 on failure, the new descriptor otherwise); `token` is
the identifier returned by `_core->loop()->add(_fd, 1, this)`;
`buffersize` is `_core->buffersize()`. -/
def Udp.openSocket (s : Udp) (version : Nat) (sockResult : Int)
    (token : Nat) (buffersize : Int) : OpenResult :=
  if 0 ≤ s._fd then ⟨s, true, []⟩
  else
    let ev0 : List Event := [Event.socketCall (version == 6)]
    if sockResult < 0 then ⟨{ s with _fd := sockResult }, false, ev0⟩
    else
      let ev1 : List Event :=
        if 0 < buffersize then
          ev0 ++ [Event.setintopt true buffersize, Event.setintopt false buffersize]
        else ev0
      ⟨{ s with _fd := sockResult, _identifier := some token }, true,
        ev1 ++ [Event.add sockResult]⟩

/-- Udp::stop (udp.cpp lines 101-111): cancel the idle watcher if one is
armed, then forget the pointer. -/
def Udp.stop (s : Udp) : IdleResult :=
  match s._idle with
  | none   => ⟨s, []⟩
  | some _ => ⟨{ s with _idle := none }, [Event.cancelIdle]⟩

/-- Udp::close (udp.cpp lines 117-133): if already closed return false;
otherwise unregister from the event loop, close the descriptor, reset
`_fd` and `_identifier`, return true. -/
def Udp.close (s : Udp) : CloseResult :=
  if s._fd < 0 then ⟨s, false, []⟩
  else ⟨{ s with _fd := -1, _identifier := none }, true,
        [Event.remove s._fd, Event.closeFd s._fd]⟩

/-- Udp::readable (udp.cpp lines 139-154): false without polling when the
socket is closed; otherwise one zero-timeout poll() call, whose result is
the oracle `pollResult`. -/
def Udp.readable (s : Udp) (pollResult : Int) : ReadableResult :=
  if s._fd < 0 then ⟨false, []⟩
  else ⟨pollResult > 0, [Event.pollCall]⟩

/-- The do/while receive loop of Udp::notify (udp.cpp lines 180-194).
`pending` is the kernel receive queue; `messages` is the loop counter.
Each iteration performs one recvfrom: an empty kernel queue yields a
non-positive byte count and ends the batch without consuming anything; a
zero-length datagram is consumed and also ends the batch; otherwise the
packet is appended to the batch, and the loop continues while the counter
incremented by one is still below 1024.  Returns the captured batch and
the leftover kernel queue. -/
def Udp.recvLoop (now : Nat) (pending : List Packet) (messages : Nat) :
    List Datagram × List Packet :=
  match pending with
  | [] => ([], [])
  | p :: rest =>
    if p.payload.length = 0 then ([], rest)
    else if messages + 1 < 1024 then
      let r := Udp.recvLoop now rest (messages + 1)
      (⟨now, p.addr, p.payload⟩ :: r.1, r.2)
    else ([⟨now, p.addr, p.payload⟩], rest)

/-- Udp::notify (udp.cpp lines 160-201): return at once if the socket is
closed; otherwise drain at most 1024 datagrams from the kernel queue into
`_responses` (all tagged with the single capture time `now`), then arm
the idle watcher unless one is already armed.  `token` is the pointer
returned by `_core->loop()->idle(this)`. -/
def Udp.notify (s : Udp) (now : Nat) (pending : List Packet) (token : Nat) :
    NotifyResult :=
  if s._fd < 0 then ⟨s, pending, []⟩
  else
    let r := Udp.recvLoop now pending 0
    let s1 : Udp := { s with _responses := s._responses ++ r.1 }
    match s1._idle with
    | some _ => ⟨s1, r.2, []⟩
    | none   => ⟨{ s1 with _idle := some token }, r.2, [Event.armIdle]⟩

/-- Udp::idle (udp.cpp lines 206-234): when the queue is empty, stop the
watcher.  Otherwise splice the front element out of `_responses` into the
local one-item list, then reconstruct the source Ip and call
`_handler->onReceived` as the final action; a reconstruction failure
(`ipOf` returning `none`, modelling the std runtime error thrown by the
Ip constructor) is caught and swallowed — the catch body only carries a
todo comment, so nothing is emitted. -/
def Udp.idle (ipOf : List Nat → Option Ip) (s : Udp) : IdleResult :=
  match s._responses with
  | [] => s.stop
  | d :: rest =>
    let s1 : Udp := { s with _responses := rest }
    match ipOf d.addr with
    | some ip => ⟨s1, [Event.onReceived ip d.payload]⟩
    | none    => ⟨s1, []⟩

/-- Destination structure built by Udp::send (udp.cpp lines 248-279):
for version 6 a `sockaddr_in6` with port htons(53), zero flowinfo and
zero scope id; otherwise a `sockaddr_in` with port htons(53).  The
address bytes are copied from the Ip object. -/
def destAddr (ip : Ip) : SockAddr :=
  if ip.version = 6 then SockAddr.v6 53 0 0 ip.bytes
  else SockAddr.v4 53 ip.bytes

/-- The sockaddr-level Udp::send overload (udp.cpp lines 289-299): first
the opportunistic pre-send drain (`if (readable()) notify();`), then one
sendto call; returns whether sendto reported a non-negative byte count.
`pollResult`, `sendtoResult` are the system-call oracles, `now`,
`pending`, `idleToken` feed the possible notify. -/
def Udp.sendAddr (s : Udp) (address : SockAddr) (query : List Nat)
    (pollResult : Int) (now : Nat) (pending : List Packet) (idleToken : Nat)
    (sendtoResult : Int) : SendResult :=
  let r := s.readable pollResult
  if r.ok then
    let n := s.notify now pending idleToken
    ⟨n.state, n.pending, 0 ≤ sendtoResult,
      r.events ++ n.events ++ [Event.sendtoCall address query]⟩
  else
    ⟨s, pending, 0 ≤ sendtoResult, r.events ++ [Event.sendtoCall address query]⟩

/-- Udp::send(const Ip &, const Query &) (udp.cpp lines 242-280): when
the socket is closed, open it lazily for the Ip version and return false
on open failure; then build the version-specific destination address and
delegate to the sockaddr-level send. -/
def Udp.send (s : Udp) (ip : Ip) (query : List Nat)
    (sockResult : Int) (regToken : Nat) (buffersize : Int)
    (pollResult : Int) (now : Nat) (pending : List Packet) (idleToken : Nat)
    (sendtoResult : Int) : SendResult :=
  if s._fd < 0 then
    let o := s.openSocket ip.version sockResult regToken buffersize
    if o.ok then
      let r := o.state.sendAddr (destAddr ip) query pollResult now pending
                idleToken sendtoResult
      ⟨r.state, r.pending, r.ok, o.events ++ r.events⟩
    else ⟨o.state, pending, false, o.events⟩
  else
    s.sendAddr (destAddr ip) query pollResult now pending idleToken sendtoResult

/-- Iterated invocation of Udp::idle by the event loop during its idle
phase: `idleRun ipOf n s` performs `n` successive idle callbacks and
concatenates their traces. -/
def Udp.idleRun (ipOf : List Nat → Option Ip) : Nat → Udp → IdleResult
  | 0, s => ⟨s, []⟩
  | Nat.succ n, s =>
    let r := Udp.idle ipOf s
    let r2 := Udp.idleRun ipOf n r.state
    ⟨r2.state, r.events ++ r2.events⟩

example : (Udp.recvLoop 7 [⟨[1], [2, 3]⟩, ⟨[4], [5]⟩] 0).1 =
    [⟨7, [1], [2, 3]⟩, ⟨7, [4], [5]⟩] := by decide

example : ((Udp.mk 3 (some 7) none []).notify 0 [] 5).state._idle = some 5 := by
  decide

/-- With a non-empty queue, Udp::idle leaves member state equal to the old
state with the front element removed, whatever the reconstruction does. -/
lemma idle_state_pop (ipOf : List Nat → Option Ip) (s : Udp) (d : Datagram)
    (rest : List Datagram) (h : s._responses = d :: rest) :
    (Udp.idle ipOf s).state = { s with _responses := rest } := by
  cases hh : ipOf d.addr <;> simp [Udp.idle, h, hh]

/-- With a non-empty queue and a successful reconstruction of the front
element, the trace of Udp::idle is exactly one handler callback carrying
that element. -/
lemma idle_events_some (ipOf : List Nat → Option Ip) (s : Udp) (d : Datagram)
    (rest : List Datagram) (ip : Ip) (h : s._responses = d :: rest)
    (hip : ipOf d.addr = some ip) :
    (Udp.idle ipOf s).events = [Event.onReceived ip d.payload] := by
  simp [Udp.idle, h, hip]

/-- With a non-empty queue and a failing reconstruction of the front
element, Udp::idle emits nothing. -/
lemma idle_events_none (ipOf : List Nat → Option Ip) (s : Udp) (d : Datagram)
    (rest : List Datagram) (h : s._responses = d :: rest)
    (hip : ipOf d.addr = none) :
    (Udp.idle ipOf s).events = [] := by
  simp [Udp.idle, h, hip]

/-- Running k idle callbacks, k at most the queue length, drops the first
k elements of the queue and changes no other member. -/
lemma idleRun_state (ipOf : List Nat → Option Ip) (k : Nat) (s : Udp)
    (hk : k ≤ s._responses.length) :
    (Udp.idleRun ipOf k s).state = { s with _responses := s._responses.drop k } := by
  induction k generalizing s with
  | zero => simp [Udp.idleRun]
  | succ n ih =>
    cases h : s._responses with
    | nil => rw [h] at hk; simp at hk
    | cons d rest =>
      have hlen : n ≤ rest.length := by
        rw [h] at hk; simpa using hk
      have h1 : (Udp.idle ipOf s).state = { s with _responses := rest } :=
        idle_state_pop ipOf s d rest h
      simp only [Udp.idleRun, h1]
      rw [ih { s with _responses := rest } hlen]
      simp [h]

/-- Running k idle callbacks, with every address among the first k
reconstructing, emits exactly the handler callbacks for the first k queue
elements, in order. -/
lemma idleRun_events (ipOf : List Nat → Option Ip) (k : Nat) (s : Udp)
    (hk : k ≤ s._responses.length)
    (hok : ∀ d ∈ s._responses.take k, (ipOf d.addr).isSome) :
    (Udp.idleRun ipOf k s).events
      = (s._responses.take k).map
          (fun d => Event.onReceived ((ipOf d.addr).getD ⟨0, []⟩) d.payload) := by
  induction k generalizing s with
  | zero => simp [Udp.idleRun]
  | succ n ih =>
    cases h : s._responses with
    | nil => rw [h] at hk; simp at hk
    | cons d rest =>
      have hlen : n ≤ rest.length := by
        rw [h] at hk; simpa using hk
      have hd : (ipOf d.addr).isSome := by
        apply hok d
        rw [h]
        simp
      obtain ⟨ip, hip⟩ : ∃ ip, ipOf d.addr = some ip := by
        cases hh : ipOf d.addr with
        | none => rw [hh] at hd; simp at hd
        | some v => exact ⟨v, rfl⟩
      have h1 : (Udp.idle ipOf s).state = { s with _responses := rest } :=
        idle_state_pop ipOf s d rest h
      have h2 := idle_events_some ipOf s d rest ip h hip
      have hok2 : ∀ e ∈ ({ s with _responses := rest } : Udp)._responses.take n,
          (ipOf e.addr).isSome := by
        intro e he
        apply hok e
        rw [h]
        simp only [List.take]
        exact List.mem_cons_of_mem d he
      simp only [Udp.idleRun, h1, h2]
      rw [ih { s with _responses := rest } hlen hok2]
      simp [h, hip]

/-- Test fixture: a reconstruction that always succeeds, wrapping the raw
bytes into a version-4 Ip. -/
def ipOfTest (bs : List Nat) : Option Ip := some ⟨4, bs⟩

/-- Test fixture: a reconstruction that always throws. -/
def ipOfFail : List Nat → Option Ip := fun _ => none

/-- Test fixture: a reconstruction that throws exactly on the address
bytes [9]. -/
def ipOfMixed (bs : List Nat) : Option Ip :=
  if bs = [9] then none else some ⟨4, bs⟩

/-- Test fixture: an open transport with an armed watcher and two queued
datagrams. -/
def sTest : Udp := ⟨3, some 7, some 9, [⟨0, [1], [10]⟩, ⟨0, [2], [20]⟩]⟩

/-- C1: for every sequence of N datagrams captured into the
pending-response queue by one drain, successive invocations of the idle
dispatch deliver them to the handler one per invocation in FIFO arrival
order across exactly N invocations, and invocation N+1 observes an empty
queue and disarms the watcher. -/
theorem C1_fifo_delivery (ipOf : List Nat → Option Ip) (s : Udp)
    (ds : List Datagram) (w : Nat)
    (hresp : s._responses = ds) (harm : s._idle = some w)
    (hok : ∀ d ∈ ds, (ipOf d.addr).isSome) :
    (∀ k (hk : k < ds.length),
      (Udp.idle ipOf (Udp.idleRun ipOf k s).state).events
        = [Event.onReceived ((ipOf (ds.get ⟨k, hk⟩).addr).getD ⟨0, []⟩)
            (ds.get ⟨k, hk⟩).payload]) ∧
    (Udp.idleRun ipOf ds.length s).events
      = ds.map (fun d => Event.onReceived ((ipOf d.addr).getD ⟨0, []⟩) d.payload) ∧
    (Udp.idleRun ipOf ds.length s).state._responses = [] ∧
    (Udp.idleRun ipOf ds.length s).state._idle = some w ∧
    Udp.idle ipOf (Udp.idleRun ipOf ds.length s).state
      = ⟨{ (Udp.idleRun ipOf ds.length s).state with _idle := none },
          [Event.cancelIdle]⟩ := by
  have hstateN : (Udp.idleRun ipOf ds.length s).state
      = { s with _responses := [] } := by
    have := idleRun_state ipOf ds.length s (by rw [hresp])
    rw [this, hresp, List.drop_length]
  refine ⟨?_, ?_, ?_, ?_, ?_⟩
  · intro k hk
    have hσ : (Udp.idleRun ipOf k s).state
        = { s with _responses := ds.drop k } := by
      have := idleRun_state ipOf k s (by rw [hresp]; exact Nat.le_of_lt hk)
      rw [this, hresp]
    have hcons : ds.drop k = ds.get ⟨k, hk⟩ :: ds.drop (k + 1) :=
      List.drop_eq_getElem_cons hk
    have hmem : ds.get ⟨k, hk⟩ ∈ ds := ds.get_mem k hk
    obtain ⟨ip, hip⟩ := Option.isSome_iff_exists.mp (hok _ hmem)
    have hev := idle_events_some ipOf (Udp.idleRun ipOf k s).state
      (ds.get ⟨k, hk⟩) (ds.drop (k + 1)) ip (by rw [hσ]; exact hcons) hip
    rw [hev, hip]
    simp
  · have := idleRun_events ipOf ds.length s (by rw [hresp])
      (by rw [hresp, List.take_length]; exact hok)
    rw [this, hresp, List.take_length]
  · rw [hstateN]
  · rw [hstateN]; exact harm
  · rw [hstateN]
    simp [Udp.idle, Udp.stop, harm]

/-- C1 witness: two datagrams, both addresses reconstructing, delivered in
order across two idle calls; the third call cancels the watcher. -/
theorem C1_fifo_delivery_witness :
    (Udp.idleRun ipOfTest 2 sTest).events
      = [Event.onReceived ⟨4, [1]⟩ [10], Event.onReceived ⟨4, [2]⟩ [20]] ∧
    (Udp.idleRun ipOfTest 2 sTest).state._responses = [] ∧
    Udp.idle ipOfTest (Udp.idleRun ipOfTest 2 sTest).state
      = ⟨⟨3, some 7, none, []⟩, [Event.cancelIdle]⟩ := by
  have h := C1_fifo_delivery ipOfTest sTest sTest._responses 9 rfl rfl (by decide)
  exact ⟨h.2.1.trans (by decide), h.2.2.1, h.2.2.2.2.trans (by decide)⟩

/-- C2: in every invocation of the idle dispatch with a non-empty queue,
exactly one item is removed from the front of the queue into a local
holder before the handler is called; the handler call, when the source
address reconstructs, is the one and final event of the routine; the
member state returned is fully determined before that call (it is the
plain pop of the front, whatever the reconstruction or the handler do),
so no member state is read or written after it. -/
theorem C2_pop_before_handler (ipOf : List Nat → Option Ip) (s : Udp)
    (d : Datagram) (rest : List Datagram) (h : s._responses = d :: rest) :
    (Udp.idle ipOf s).state = { s with _responses := rest } ∧
    (∀ ip, ipOf d.addr = some ip →
      (Udp.idle ipOf s).events = [Event.onReceived ip d.payload]) ∧
    (ipOf d.addr = none → (Udp.idle ipOf s).events = []) := by
  refine ⟨idle_state_pop ipOf s d rest h, ?_, ?_⟩
  · intro ip hip
    exact idle_events_some ipOf s d rest ip h hip
  · intro hip
    exact idle_events_none ipOf s d rest h hip

/-- C2 witness: a one-element queue is popped and the single trace entry
is the handler call carrying that element. -/
theorem C2_pop_before_handler_witness :
    (Udp.idle ipOfTest ⟨6, some 2, some 3, [⟨1, [5], [40]⟩]⟩).state
      = ⟨6, some 2, some 3, []⟩ ∧
    (Udp.idle ipOfTest ⟨6, some 2, some 3, [⟨1, [5], [40]⟩]⟩).events
      = [Event.onReceived ⟨4, [5]⟩ [40]] := by
  have h := C2_pop_before_handler ipOfTest ⟨6, some 2, some 3, [⟨1, [5], [40]⟩]⟩
    ⟨1, [5], [40]⟩ [] rfl
  exact ⟨h.1.trans (by decide), h.2.1 ⟨4, [5]⟩ rfl⟩

/-- C3 counterexample: notify() on an open socket with an empty kernel
queue drains zero datagrams (the queue stays empty) and nevertheless arms
the idle watcher, so the transition from disarmed to armed does not
happen only when a drain produces at least one item. -/
theorem C3_counterexample :
    ((Udp.mk 3 (some 7) none []).notify 0 [] 5).state._idle = some 5 ∧
    ((Udp.mk 3 (some 7) none []).notify 0 [] 5).state._responses = [] := by
  decide

/-- C3 amended: the watcher transitions from disarmed to armed whenever
notify() runs on an open socket, regardless of how many items the drain
produced (zero included); arming is idempotent, so an already armed
watcher is left unchanged and at most one watcher exists at a time; the
watcher is disarmed exactly when a dispatch invocation observes an empty
queue, and it remains armed after a dispatch that delivers an item. -/
theorem C3_watcher_transitions (s : Udp) (now : Nat) (pending : List Packet)
    (token : Nat) (ipOf : List Nat → Option Ip) :
    (0 ≤ s._fd → s._idle = none →
      (s.notify now pending token).state._idle = some token) ∧
    (∀ w, s._idle = some w → (s.notify now pending token).state._idle = some w) ∧
    (s._responses = [] → (Udp.idle ipOf s).state._idle = none) ∧
    (s._responses ≠ [] → (Udp.idle ipOf s).state._idle = s._idle) := by
  refine ⟨?_, ?_, ?_, ?_⟩
  · intro h0 hidle
    have hfd : ¬ s._fd < 0 := not_lt.mpr h0
    simp [Udp.notify, hfd, hidle]
  · intro w hw
    by_cases hfd : s._fd < 0 <;> simp [Udp.notify, hfd, hw]
  · intro hresp
    cases hidle : s._idle <;> simp [Udp.idle, hresp, Udp.stop, hidle]
  · intro hresp
    cases h : s._responses with
    | nil => exact absurd h hresp
    | cons d rest => rw [idle_state_pop ipOf s d rest h]

/-- C3 witness: arming on a zero-item drain, idempotent arming, disarming
on an empty dispatch, and staying armed after a delivering dispatch, each
at a concrete input. -/
theorem C3_watcher_transitions_witness :
    ((Udp.mk 2 (some 1) none []).notify 0 [] 6).state._idle = some 6 ∧
    ((Udp.mk 2 (some 1) (some 4) []).notify 0 [] 6).state._idle = some 4 ∧
    (Udp.idle ipOfTest (Udp.mk 2 (some 1) (some 4) [])).state._idle = none ∧
    (Udp.idle ipOfTest (Udp.mk 2 (some 1) (some 4) [⟨0, [1], [2]⟩])).state._idle
      = some 4 := by
  refine ⟨(C3_watcher_transitions (Udp.mk 2 (some 1) none []) 0 [] 6 ipOfTest).1
            (by decide) rfl,
          (C3_watcher_transitions (Udp.mk 2 (some 1) (some 4) []) 0 [] 6 ipOfTest).2.1
            4 rfl,
          (C3_watcher_transitions (Udp.mk 2 (some 1) (some 4) []) 0 [] 6 ipOfTest).2.2.1
            rfl,
          (C3_watcher_transitions (Udp.mk 2 (some 1) (some 4) [⟨0, [1], [2]⟩]) 0 [] 6
            ipOfTest).2.2.2 (by decide)⟩

/-- C6 counterexample: when reconstruction of the source address fails
during an idle dispatch, the catch block emits nothing at all — in
particular no error report is logged (the source only carries a todo
comment there), so the failure is caught and swallowed but not logged. -/
theorem C6_counterexample :
    (Udp.idle ipOfFail ⟨3, some 1, some 2, [⟨0, [9], [1, 2]⟩]⟩).events = [] ∧
    Event.logError ∉ (Udp.idle ipOfFail ⟨3, some 1, some 2, [⟨0, [9], [1, 2]⟩]⟩).events := by
  decide

/-- C6 amended: if reconstruction of the source address fails during an
idle dispatch, the failure is caught and swallowed (no error report is
emitted): the dispatch invocation does not propagate the failure, the
failed item has already been removed from the queue, the watcher state is
untouched, and delivery of the remaining items continues on later
ticks. -/
theorem C6_reconstruction_failure_swallowed (ipOf : List Nat → Option Ip)
    (s : Udp) (d : Datagram) (rest : List Datagram)
    (h : s._responses = d :: rest) (hfail : ipOf d.addr = none) :
    (Udp.idle ipOf s).state = { s with _responses := rest } ∧
    (Udp.idle ipOf s).events = [] ∧
    (∀ d2 r2 ip2, rest = d2 :: r2 → ipOf d2.addr = some ip2 →
      (Udp.idle ipOf (Udp.idle ipOf s).state).events
        = [Event.onReceived ip2 d2.payload] ∧
      (Udp.idle ipOf (Udp.idle ipOf s).state).state
        = { s with _responses := r2 }) := by
  have hpop := idle_state_pop ipOf s d rest h
  refine ⟨hpop, idle_events_none ipOf s d rest h hfail, ?_⟩
  intro d2 r2 ip2 hrest hip2
  have hresp2 : (Udp.idle ipOf s).state._responses = d2 :: r2 := by
    rw [hpop, hrest]
  constructor
  · exact idle_events_some ipOf (Udp.idle ipOf s).state d2 r2 ip2 hresp2 hip2
  · rw [idle_state_pop ipOf (Udp.idle ipOf s).state d2 r2 hresp2, hpop]

/-- C6 witness: a queue whose first address fails reconstruction and
whose second succeeds: the first tick removes the bad item silently, the
second delivers the good one. -/
theorem C6_reconstruction_failure_swallowed_witness :
    (Udp.idle ipOfMixed ⟨5, some 1, some 2, [⟨0, [9], [1, 2]⟩, ⟨0, [1], [7]⟩]⟩).state
      = ⟨5, some 1, some 2, [⟨0, [1], [7]⟩]⟩ ∧
    (Udp.idle ipOfMixed ⟨5, some 1, some 2, [⟨0, [9], [1, 2]⟩, ⟨0, [1], [7]⟩]⟩).events
      = [] ∧
    (Udp.idle ipOfMixed
      (Udp.idle ipOfMixed ⟨5, some 1, some 2, [⟨0, [9], [1, 2]⟩, ⟨0, [1], [7]⟩]⟩).state).events
      = [Event.onReceived ⟨4, [1]⟩ [7]] := by
  have h := C6_reconstruction_failure_swallowed ipOfMixed
    ⟨5, some 1, some 2, [⟨0, [9], [1, 2]⟩, ⟨0, [1], [7]⟩]⟩
    ⟨0, [9], [1, 2]⟩ [⟨0, [1], [7]⟩] rfl (by decide)
  exact ⟨h.1.trans (by decide), h.2.1,
         (h.2.2 ⟨0, [1], [7]⟩ [] ⟨4, [1]⟩ rfl (by decide)).1⟩

/-- The receive loop of Udp::notify, entered with a loop counter below
1024, captures at most 1024 - counter datagrams. -/
lemma recvLoop_length (now : Nat) (pending : List Packet) (messages : Nat)
    (hm : messages < 1024) :
    (Udp.recvLoop now pending messages).1.length ≤ 1024 - messages := by
  induction pending generalizing messages with
  | nil => simp [Udp.recvLoop]
  | cons p rest ih =>
    by_cases h0 : p.payload.length = 0
    · simp [Udp.recvLoop, h0]
    · by_cases h1 : messages + 1 < 1024
      · have ihh := ih (messages + 1) h1
        simp only [Udp.recvLoop, if_neg h0, if_pos h1, List.length_cons]
        omega
      · simp only [Udp.recvLoop, if_neg h0, if_neg h1, List.length_cons,
          List.length_nil]
        omega

/-- When every pending packet is non-empty, the receive loop of
Udp::notify captures exactly the first 1024 - counter packets, in arrival
order and all tagged with the single capture time, and leaves the rest in
the kernel queue. -/
lemma recvLoop_eq (now : Nat) (pending : List Packet) (messages : Nat)
    (hm : messages < 1024)
    (hpos : ∀ p ∈ pending, p.payload ≠ []) :
    Udp.recvLoop now pending messages
      = ((pending.take (1024 - messages)).map
          (fun p => Datagram.mk now p.addr p.payload),
         pending.drop (1024 - messages)) := by
  induction pending generalizing messages with
  | nil => simp [Udp.recvLoop]
  | cons p rest ih =>
    have hp : ¬ p.payload.length = 0 := by
      have := hpos p (by simp)
      simpa [List.length_eq_zero] using this
    by_cases h1 : messages + 1 < 1024
    · have ihh := ih (messages + 1) h1 (fun q hq => hpos q (List.mem_cons_of_mem p hq))
      have hsub : 1024 - messages = (1024 - (messages + 1)) + 1 := by omega
      simp only [Udp.recvLoop, if_neg hp, if_pos h1, ihh, hsub,
        List.take_succ_cons, List.drop_succ_cons, List.map_cons]
    · have hsub : 1024 - messages = 1 := by omega
      simp only [Udp.recvLoop, if_neg hp, if_neg h1, hsub]
      simp

/-- C4: for every invocation of notify() on an open socket, at most 1024
datagrams are received and appended to the pending-response queue in
arrival order, regardless of how many datagrams the kernel has pending;
the leftovers remain in the kernel queue for a later notify(). -/
theorem C4_notify_bounded (s : Udp) (now : Nat) (pending : List Packet)
    (token : Nat) (hopen : 0 ≤ s._fd)
    (hpos : ∀ p ∈ pending, p.payload ≠ []) :
    (s.notify now pending token).state._responses
      = s._responses
        ++ (pending.take 1024).map (fun p => Datagram.mk now p.addr p.payload) ∧
    (s.notify now pending token).pending = pending.drop 1024 ∧
    ((s.notify now pending token).state._responses).length
      ≤ s._responses.length + 1024 := by
  have hfd : ¬ s._fd < 0 := not_lt.mpr hopen
  have hre := recvLoop_eq now pending 0 (by omega) hpos
  rw [Nat.sub_zero] at hre
  have h1 : (s.notify now pending token).state._responses
      = s._responses
        ++ (pending.take 1024).map (fun p => Datagram.mk now p.addr p.payload) := by
    cases hidle : s._idle <;> simp [Udp.notify, hfd, hre, hidle]
  refine ⟨h1, ?_, ?_⟩
  · cases hidle : s._idle <;> simp [Udp.notify, hfd, hre, hidle]
  · rw [h1]
    simp only [List.length_append, List.length_map, List.length_take]
    omega

/-- C4 witness: a two-packet kernel queue is drained whole (well under the
cap) and appended in arrival order, leaving nothing behind. -/
theorem C4_notify_bounded_witness :
    ((Udp.mk 4 (some 1) (some 2) []).notify 3 [⟨[1], [5]⟩, ⟨[2], [6]⟩] 8).state._responses
      = [⟨3, [1], [5]⟩, ⟨3, [2], [6]⟩] ∧
    ((Udp.mk 4 (some 1) (some 2) []).notify 3 [⟨[1], [5]⟩, ⟨[2], [6]⟩] 8).pending
      = [] := by
  have h := C4_notify_bounded (Udp.mk 4 (some 1) (some 2) []) 3
    [⟨[1], [5]⟩, ⟨[2], [6]⟩] 8 (by decide) (by decide)
  exact ⟨h.1.trans (by decide), h.2.1.trans (by decide)⟩

/-- Udp::notify never changes the descriptor. -/
lemma notify_fd (s : Udp) (now : Nat) (pending : List Packet) (token : Nat) :
    (s.notify now pending token).state._fd = s._fd := by
  by_cases hfd : s._fd < 0
  · simp [Udp.notify, hfd]
  · cases hidle : s._idle <;> simp [Udp.notify, hfd, hidle]

/-- The sockaddr-level Udp::send never changes the descriptor. -/
lemma sendAddr_fd (s : Udp) (address : SockAddr) (query : List Nat)
    (pollResult : Int) (now : Nat) (pending : List Packet) (idleToken : Nat)
    (sendtoResult : Int) :
    (s.sendAddr address query pollResult now pending idleToken
        sendtoResult).state._fd = s._fd := by
  by_cases hr : (s.readable pollResult).ok
  · simp [Udp.sendAddr, hr, notify_fd]
  · simp [Udp.sendAddr, hr]

/-- C5: for every call send(targetAddress, query) on a closed transport,
the socket is opened lazily for the IP version of the target (the socket
system call is issued with the address family chosen from that version);
if opening fails (socket returns -1), send returns false, the member
state is unchanged, and no event-loop registration occurs — the trace
holds nothing but the failed socket call; if opening succeeds, the
descriptor is installed and a registration with the event loop is
emitted. -/
theorem C5_send_lazy_open (s : Udp) (ip : Ip) (query : List Nat)
    (regToken : Nat) (buffersize : Int) (pollResult : Int) (now : Nat)
    (pending : List Packet) (idleToken : Nat) (sendtoResult : Int)
    (hclosed : s._fd = -1) :
    s.send ip query (-1) regToken buffersize pollResult now pending idleToken
        sendtoResult
      = ⟨s, pending, false, [Event.socketCall (ip.version == 6)]⟩ ∧
    (∀ fd2 : Int, 0 ≤ fd2 →
      (s.send ip query fd2 regToken buffersize pollResult now pending idleToken
          sendtoResult).state._fd = fd2 ∧
      Event.add fd2 ∈ (s.send ip query fd2 regToken buffersize pollResult now
          pending idleToken sendtoResult).events) := by
  have hfd : s._fd < 0 := by omega
  have hnot : ¬ 0 ≤ s._fd := by omega
  have hs : ({ s with _fd := -1 } : Udp) = s := by
    obtain ⟨a, b, c, d⟩ := s
    simp_all
  constructor
  · simp [Udp.send, Udp.openSocket, hfd, hnot, hs]
  · intro fd2 hfd2
    have hnot2 : ¬ fd2 < 0 := by omega
    constructor
    · simp [Udp.send, Udp.openSocket, hfd, hnot, hnot2, sendAddr_fd]
    · by_cases hb : 0 < buffersize <;>
        simp [Udp.send, Udp.openSocket, hfd, hnot, hnot2, hb]

/-- C5 witness: on a closed transport, a failing socket call makes send
return false with nothing but the socket attempt in the trace, and a
succeeding socket call installs the descriptor and registers it. -/
theorem C5_send_lazy_open_witness :
    (Udp.mk (-1) none none []).send ⟨4, [1, 2, 3, 4]⟩ [9] (-1) 11 0 0 0 [] 12 0
      = ⟨Udp.mk (-1) none none [], [], false, [Event.socketCall false]⟩ ∧
    ((Udp.mk (-1) none none []).send ⟨4, [1, 2, 3, 4]⟩ [9] 5 11 0 0 0 [] 12
        0).state._fd = 5 ∧
    Event.add 5 ∈ ((Udp.mk (-1) none none []).send ⟨4, [1, 2, 3, 4]⟩ [9] 5 11 0
        0 0 [] 12 0).events := by
  have h := C5_send_lazy_open (Udp.mk (-1) none none []) ⟨4, [1, 2, 3, 4]⟩ [9]
    11 0 0 0 [] 12 0 rfl
  exact ⟨h.1.trans (by decide), (h.2 5 (by decide)).1, (h.2 5 (by decide)).2⟩

/-- C7: calling close() twice in succession on an open transport: the
first call returns true and performs exactly one event-loop
unregistration (one remove event, then the descriptor close); the second
call returns false, performs no further unregistration and no state
change. -/
theorem C7_close_idempotent (s : Udp) (h : 0 ≤ s._fd) :
    s.close.ok = true ∧
    s.close.events = [Event.remove s._fd, Event.closeFd s._fd] ∧
    s.close.state.close.ok = false ∧
    s.close.state.close.state = s.close.state ∧
    s.close.state.close.events = [] := by
  have hfd : ¬ s._fd < 0 := not_lt.mpr h
  norm_num [Udp.close, hfd]

/-- C7 witness: closing an open transport twice at a concrete state. -/
theorem C7_close_idempotent_witness :
    (Udp.mk 5 (some 3) (some 4) [⟨1, [2], [3]⟩]).close.ok = true ∧
    (Udp.mk 5 (some 3) (some 4) [⟨1, [2], [3]⟩]).close.events
      = [Event.remove 5, Event.closeFd 5] ∧
    (Udp.mk 5 (some 3) (some 4) [⟨1, [2], [3]⟩]).close.state.close.ok = false ∧
    (Udp.mk 5 (some 3) (some 4) [⟨1, [2], [3]⟩]).close.state.close.events = [] := by
  have h := C7_close_idempotent (Udp.mk 5 (some 3) (some 4) [⟨1, [2], [3]⟩])
    (by decide)
  exact ⟨h.1, h.2.1.trans (by decide), h.2.2.1, h.2.2.2.2⟩

/-- C8: close() modifies only the descriptor and the registration token:
the pending-response queue and the deferred watcher are unchanged, so
every datagram already captured before close() is still delivered to the
handler, in order, by the subsequent idle dispatches. -/
theorem C8_close_preserves_delivery (ipOf : List Nat → Option Ip) (s : Udp)
    (h : 0 ≤ s._fd)
    (hok : ∀ d ∈ s._responses, (ipOf d.addr).isSome) :
    s.close.state._responses = s._responses ∧
    s.close.state._idle = s._idle ∧
    (Udp.idleRun ipOf s._responses.length s.close.state).events
      = s._responses.map
          (fun d => Event.onReceived ((ipOf d.addr).getD ⟨0, []⟩) d.payload) ∧
    (Udp.idleRun ipOf s._responses.length s.close.state).state._responses
      = [] := by
  have hfd : ¬ s._fd < 0 := not_lt.mpr h
  have hresp : s.close.state._responses = s._responses := by
    simp [Udp.close, hfd]
  have hidle : s.close.state._idle = s._idle := by
    simp [Udp.close, hfd]
  refine ⟨hresp, hidle, ?_, ?_⟩
  · rw [idleRun_events ipOf s._responses.length s.close.state (by simp [hresp])
      (by rw [hresp, List.take_length]; exact hok), hresp, List.take_length]
  · rw [idleRun_state ipOf s._responses.length s.close.state (by simp [hresp])]
    simp [hresp, List.drop_length]

/-- C8 witness: after closing an open transport holding one captured
datagram, the next idle dispatch still delivers it. -/
theorem C8_close_preserves_delivery_witness :
    (Udp.mk 6 (some 2) (some 8) [⟨1, [3], [30]⟩]).close.state._responses
      = [⟨1, [3], [30]⟩] ∧
    (Udp.mk 6 (some 2) (some 8) [⟨1, [3], [30]⟩]).close.state._idle = some 8 ∧
    (Udp.idleRun ipOfTest 1
        (Udp.mk 6 (some 2) (some 8) [⟨1, [3], [30]⟩]).close.state).events
      = [Event.onReceived ⟨4, [3]⟩ [30]] := by
  have h := C8_close_preserves_delivery ipOfTest
    (Udp.mk 6 (some 2) (some 8) [⟨1, [3], [30]⟩]) (by decide) (by decide)
  exact ⟨h.1, h.2.1, h.2.2.1.trans (by decide)⟩

/-- C9: the zero-timeout readiness check readable() on a closed transport
always returns false and performs no poll of the operating system (the
trace is empty). -/
theorem C9_readable_closed (s : Udp) (pollResult : Int) (h : s._fd < 0) :
    s.readable pollResult = ⟨false, []⟩ := by
  simp [Udp.readable, h]

/-- C9 witness: readable() on a concrete closed transport, even when the
oracle would report readiness. -/
theorem C9_readable_closed_witness :
    (Udp.mk (-1) none none []).readable 1 = ⟨false, []⟩ :=
  C9_readable_closed (Udp.mk (-1) none none []) 1 (by decide)

/-- C10: notify() on a closed transport returns immediately: nothing is
received (the kernel queue is untouched), the pending-response queue is
not modified, the watcher is neither armed nor disarmed, and no external
call is made. -/
theorem C10_notify_closed (s : Udp) (now : Nat) (pending : List Packet)
    (token : Nat) (h : s._fd < 0) :
    s.notify now pending token = ⟨s, pending, []⟩ := by
  simp [Udp.notify, h]

/-- C10 witness: notify() on a concrete closed transport with a pending
kernel packet and an armed watcher changes nothing. -/
theorem C10_notify_closed_witness :
    (Udp.mk (-1) none (some 2) [⟨0, [1], [2]⟩]).notify 5 [⟨[3], [4]⟩] 9
      = ⟨Udp.mk (-1) none (some 2) [⟨0, [1], [2]⟩], [⟨[3], [4]⟩], []⟩ :=
  C10_notify_closed (Udp.mk (-1) none (some 2) [⟨0, [1], [2]⟩]) 5 [⟨[3], [4]⟩]
    9 (by decide)
